import Mathlib

/-!
Shallow embedding of src/state.rs of the tui-am-i repository: the screen
state machine (the Screen driver, SelectScreen and CharacterScreen) together
with a model of the terminal that the code drives through the external
crossterm and tui crates.

Modelling conventions:
  - the terminal is a state (list of visible lines, cursor row, cursor
    column); crossterm cursor commands and raw writes are interpreted on it;
  - fallible Rust code returning anyhow Result is modelled with Except
    String; a Rust panic (out of bounds indexing, Option unwrap on None) is
    modelled as the none case of an outer Option;
  - u16 quantities in the source are modelled as Nat reduced mod 2 ^ 16
    where the source casts: the saved character count goes through a
    truncating len() as u16 cast, and the cursor row is read through the
    crossterm position() API, which returns u16 (the reduction is the
    identity on every terminal reachable row);
  - the source file has two let bindings in transposed order (the length of
    the character list is computed one line before the list binding it
    reads); the embedding uses the evident working order.
-/

namespace TuiAmI

/-- Modelled from the spec: the Character record of the external character
storage collaborator (crate::character, not under src/). It carries a name
and a class, both text. -/
structure Character where
  name : String
  class' : String
deriving DecidableEq

/-- Modelled from the spec: Character::new() constructs a fresh default
character; the spec does not fix the default field values, so the model
picks empty text for both fields. -/
def Character.new : Character := ⟨"", ""⟩

/-- Model of a tui text Span: a content string with one emphasis level
(bold or plain), matching Span::styled with Modifier::BOLD and Span::raw. -/
structure Span where
  bold : Bool
  content : String
deriving DecidableEq

/-- Model of Span::styled with Style::default().add_modifier(Modifier::BOLD). -/
def Span.styledBold (s : String) : Span := ⟨true, s⟩

/-- Model of Span::raw. -/
def Span.raw (s : String) : Span := ⟨false, s⟩

/-- Model of the terminal owned by the driver: the visible lines and the
cursor position (row, column), both zero based. -/
structure Term where
  lines : List String
  row : Nat
  col : Nat
deriving DecidableEq

/-- Replaces line number n of the screen, materialising missing lines above
it as empty lines. -/
def Term.setLine : List String → Nat → String → List String
  | [], 0, s => [s]
  | [], n + 1, s => "" :: Term.setLine [] n s
  | _ :: rest, 0, s => s :: rest
  | a :: rest, n + 1, s => a :: Term.setLine rest n s

/-- Overwrites the character cell at the given column of one line, padding
with spaces when the line is shorter than the column. -/
def Term.overwriteChar (line : String) (col : Nat) (c : Char) : String :=
  String.mk (line.data.take col ++ List.replicate (col - line.data.length) ' '
    ++ [c] ++ line.data.drop (col + 1))

/-- Feeds one character to the terminal. In raw mode a carriage return
moves the cursor to column zero, a line feed moves it one row down keeping
the column (which is why the source writes both), and every other character
is printed at the cursor cell and advances the column. -/
def Term.putChar (t : Term) (c : Char) : Term :=
  if c = '\r' then { t with col := 0 }
  else if c = '\n' then { t with row := t.row + 1 }
  else
    { t with
      lines := Term.setLine t.lines t.row
        (Term.overwriteChar (t.lines.getD t.row "") t.col c)
      col := t.col + 1 }

/-- Writes a raw string to the terminal character by character. -/
def Term.writeStr (t : Term) (s : String) : Term :=
  s.data.foldl Term.putChar t

/-- The terminal commands the source issues through crossterm and raw
writes to stdout. -/
inductive TermOp where
  /-- Clear(ClearType::All): erases the whole screen, cursor unchanged. -/
  | clearAll
  /-- cursor::MoveTo(column, row), in crossterm argument order. -/
  | moveTo (col row : Nat)
  /-- cursor::MoveToPreviousLine(n): n rows up, column zero; the terminal
  clamps at the top margin, hence truncating Nat subtraction. -/
  | moveToPreviousLine (n : Nat)
  /-- cursor::MoveToNextLine(n): n rows down, column zero. -/
  | moveToNextLine (n : Nat)
  /-- A raw write of a string to stdout. -/
  | write (s : String)
  /-- stdout flush: no visible effect in the model. -/
  | flush
deriving DecidableEq

/-- Interprets one terminal command on the terminal state. -/
def applyOp (t : Term) : TermOp → Term
  | .clearAll => { t with lines := [] }
  | .moveTo c r => { t with row := r, col := c }
  | .moveToPreviousLine n => { t with row := t.row - n, col := 0 }
  | .moveToNextLine n => { t with row := t.row + n, col := 0 }
  | .write s => t.writeStr s
  | .flush => t

/-- Interprets a command sequence left to right. -/
def applyOps (t : Term) (ops : List TermOp) : Term :=
  ops.foldl applyOp t

/-- Model of the crossterm KeyCode values the source distinguishes: Esc,
Enter, a printable character, and a collapsed case for every other key. -/
inductive KeyCode where
  | Esc
  | Enter
  | Char (c : Char)
  | other
deriving DecidableEq

/-- Model of crossterm KeyEvent; the source only reads its code field. -/
structure KeyEvent where
  code : KeyCode
deriving DecidableEq

/-- Model of crossterm Event: a keyboard event or any other event. -/
inductive Event where
  | Key (event : KeyEvent)
  | other
deriving DecidableEq

/-- SelectScreen from src/state.rs: owns the ordered list of saved
characters. -/
structure SelectScreen where
  saved_characters : List Character
deriving DecidableEq

/-- CharacterScreen from src/state.rs: owns at most one character. -/
structure CharacterScreen where
  current_character : Option Character
deriving DecidableEq

/-- The closed set of screen states behind the State trait object; the
trait has exactly the two implementations below, so the dynamic dispatch is
modelled as a tagged union. -/
inductive State where
  | select (s : SelectScreen)
  | character (s : CharacterScreen)
deriving DecidableEq

/-- HandleKeyboardInput from src/state.rs: the outcome a state handler
reports to the driver. -/
inductive HandleKeyboardInput where
  | ChangeState (s : State)
  | Input
  | Exit
deriving DecidableEq

/-- Model of the anyhow Context combinator on Option: some becomes ok and
none becomes the given context message. -/
def Option.context (o : Option α) (msg : String) : Except String α :=
  match o with
  | some a => Except.ok a
  | none => Except.error msg

/-- The terminal command sequence emitted by SelectScreen::display_screen:
clear and home, one raw write plus flush per saved character (name, one
space, class, then a carriage return and line feed), the literal final
line, a flush, and a final move home. -/
def SelectScreen.ops (self : SelectScreen) : List TermOp :=
  [.clearAll, .moveTo 0 0]
    ++ (self.saved_characters.flatMap fun character =>
        [.write (character.name ++ " " ++ character.class' ++ "\r\n"), .flush])
    ++ [.write "New Character Sheet..", .flush, .moveTo 0 0]

/-- SelectScreen::display_screen: interprets the emitted commands on the
terminal; it never fails in the model (only real I O failure can make it
fail in the source) and never panics. -/
def SelectScreen.display_screen (self : SelectScreen) (t : Term) :
    Option (Except String Unit × Term) :=
  some (Except.ok (), applyOps t self.ops)

/-- SelectScreen::handle_keyboard_event. The cursor row is read back from
the terminal as a u16 (modelled as mod 2 ^ 16, the identity on reachable
rows) and the saved character count goes through the truncating
len() as u16 cast of the source, so it is the count mod 2 ^ 16; Esc
exits, k and j move the cursor through crossterm commands, Enter selects
the character under the wrapped cursor row or a fresh one when the
wrapped row equals the wrapped count. Indexing past the end of the list
is a Rust panic, modelled as none. -/
def SelectScreen.handle_keyboard_event (self : SelectScreen) (t : Term)
    (event : KeyEvent) : Option (HandleKeyboardInput × Term) :=
  let current_row := t.row % 65536
  let all_characters := self.saved_characters
  let all_characters_length := all_characters.length % 65536
  match event.code with
  | .Esc => some (.Exit, t)
  | .Char c =>
    if c = 'k' then
      some (.Input, applyOp t (.moveToPreviousLine 1))
    else if c = 'j' then
      if current_row ≠ all_characters_length then
        some (.Input, applyOp t (.moveToNextLine 1))
      else
        some (.Input, t)
    else some (.Input, t)
  | .Enter =>
    if current_row = all_characters_length then
      some (.ChangeState (.character ⟨some Character.new⟩), t)
    else
      match all_characters.get? current_row with
      | some selected_character =>
        some (.ChangeState (.character ⟨some selected_character⟩), t)
      | none => none
  | .other => some (.Input, t)

/-- Model of the external tui crate drawing a Paragraph wrapped in a
bordered Block with the given title over the full frame: the visible
content is the title followed by the text rows; border glyphs and styling
are abstracted away (the tui crate is an external collaborator per the
spec, and no claim inspects them). -/
def paragraphLines (title : String) (text : List (List Span)) : List String :=
  title :: text.map (fun row => String.join (row.map Span.content))

/-- CharacterScreen::display_screen. The Spans for the sheet body are built
first, extracting the held character twice through context("No Character"),
so an absent character returns that error before any terminal effect; only
then is the tui terminal cleared, the cursor homed, and the sheet drawn.
The title extraction inside the draw closure uses an unchecked unwrap,
modelled as the none (panic) case. -/
def CharacterScreen.display_screen (self : CharacterScreen) (t : Term) :
    Option (Except String Unit × Term) :=
  match Option.context self.current_character "No Character" with
  | .error e => some (.error e, t)
  | .ok c1 =>
    match Option.context self.current_character "No Character" with
    | .error e => some (.error e, t)
    | .ok c2 =>
      let character_text : List (List Span) :=
        [[Span.styledBold "Name: ", Span.raw c1.name],
         [Span.styledBold "Class: ", Span.raw c2.class']]
      match self.current_character with
      | none => none
      | some c =>
        some (Except.ok (),
          { lines := paragraphLines c.name character_text, row := 0, col := 0 })

/-- CharacterScreen::handle_keyboard_event: every key is consumed. -/
def CharacterScreen.handle_keyboard_event (self : CharacterScreen) (t : Term)
    (event : KeyEvent) : Option (HandleKeyboardInput × Term) :=
  some (.Input, t)

/-- Dispatch of the State trait method display_screen. -/
def State.display_screen : State → Term → Option (Except String Unit × Term)
  | .select s, t => s.display_screen t
  | .character s, t => s.display_screen t

/-- Dispatch of the State trait method handle_keyboard_event. -/
def State.handle_keyboard_event :
    State → Term → KeyEvent → Option (HandleKeyboardInput × Term)
  | .select s, t, e => s.handle_keyboard_event t e
  | .character s, t, e => s.handle_keyboard_event t e

/-- The terminal content visible after invoking the render of a state on
terminal t: the drawn terminal on success, the unchanged terminal on the
clean missing character error (the render returns before touching the
terminal), and t on the panic case (never reached by these two states). -/
def State.renderedTerm (s : State) (t : Term) : Term :=
  match s.display_screen t with
  | some (_, t') => t'
  | none => t

/-- Screen from src/state.rs: the driver, owning the optional active state
(the stdout handle is passed separately as the terminal model). -/
structure Screen where
  state : Option State
deriving DecidableEq

/-- Screen::new: starts on the selection screen over the saved characters. -/
def Screen.new (saved_characters : List Character) : Screen :=
  { state := some (.select ⟨saved_characters⟩) }

/-- Screen::display_screen: delegates to the active state when present. -/
def Screen.display_screen (self : Screen) (t : Term) :
    Option (Except String Unit × Term) :=
  match self.state with
  | some state => state.display_screen t
  | none => some (Except.ok (), t)

/-- Whether one pass of the input loop keeps looping or leaves the loop. -/
inductive LoopControl where
  | continueLoop
  | exitLoop
deriving DecidableEq

/-- One iteration of the loop body of Screen::handle_input: flush (no
visible effect), read one event, and on a keyboard event call the active
state handler. The source then matches on the handler outcome with two
arms that both do nothing, so the outcome is dropped: the state field is
never reassigned, nothing is rendered, and no arm leaves the loop. -/
def Screen.handle_input_step (self : Screen) (t : Term) (ev : Event) :
    Option (Screen × Term × LoopControl) :=
  match ev with
  | .Key event =>
    match self.state with
    | some state =>
      match state.handle_keyboard_event t event with
      | some (_, t') => some (self, t', .continueLoop)
      | none => none
    | none => some (self, t, .continueLoop)
  | .other => some (self, t, .continueLoop)

/-- Screen::handle_input run over a finite prefix of the event stream. The
boolean records whether the loop terminated normally (reached the final Ok)
before the prefix was exhausted; none models a panic inside a handler. -/
def Screen.handle_input : Screen → Term → List Event → Option (Screen × Term × Bool)
  | self, t, [] => some (self, t, false)
  | self, t, ev :: evs =>
    match self.handle_input_step t ev with
    | none => none
    | some (s', t', .exitLoop) => some (s', t', true)
    | some (s', t', .continueLoop) => s'.handle_input t' evs

/-! Helper notions and lemmas about the terminal model. -/

/-- The string contains neither a carriage return nor a line feed. -/
def crlfFree (s : String) : Prop :=
  ∀ c ∈ s.data, c ≠ '\r' ∧ c ≠ '\n'

instance (s : String) : Decidable (crlfFree s) := by
  unfold crlfFree
  infer_instance

theorem crlfFree_append (a b : String) (ha : crlfFree a) (hb : crlfFree b) :
    crlfFree (a ++ b) := by
  intro c hc
  rw [String.data_append] at hc
  rcases List.mem_append.mp hc with h | h
  exacts [ha c h, hb c h]

theorem line_data_ne_nil (ch : Character) :
    (ch.name ++ " " ++ ch.class').data ≠ [] := by
  simp [String.data_append]

theorem setLine_eq (x : String) (L : List String) (k : Nat)
    (h1 : k ≤ L.length) (h2 : L.length ≤ k + 1) :
    Term.setLine L k x = L.take k ++ [x] := by
  induction L generalizing k with
  | nil =>
    have hk : k = 0 := Nat.le_zero.mp h1
    subst hk
    rfl
  | cons a L ih =>
    cases k with
    | zero =>
      have hL : L = [] := by
        simp only [List.length_cons] at h2
        have : L.length = 0 := by omega
        simpa [List.length_eq_zero] using this
      subst hL
      rfl
    | succ k =>
      have h1' : k ≤ L.length := by simpa using h1
      have h2' : L.length ≤ k + 1 := by simpa using h2
      simp [Term.setLine, List.take_succ_cons, ih k h1' h2']

theorem eq_take_snoc (L : List String) (k : Nat) (p : String)
    (hlen : L.length = k + 1) (hget : L.getD k "" = p) :
    L = L.take k ++ [p] := by
  induction L generalizing k with
  | nil => simp at hlen
  | cons a L ih =>
    cases k with
    | zero =>
      have hL : L = [] := by
        simp only [List.length_cons] at hlen
        have : L.length = 0 := by omega
        simpa [List.length_eq_zero] using this
      subst hL
      exact congrArg (fun z => [z]) hget
    | succ k =>
      have hlen' : L.length = k + 1 := by simpa using hlen
      have hget' : L.getD k "" = p := by simpa using hget
      simpa [List.take_succ_cons] using ih k hlen' hget'

theorem getD_snoc (M : List String) (x : String) :
    (M ++ [x]).getD M.length "" = x := by
  induction M with
  | nil => rfl
  | cons a M ih => simp only [List.cons_append, List.length_cons, List.getD_cons_succ, ih]

theorem overwriteChar_at_end (p : String) (c : Char) :
    Term.overwriteChar p p.data.length c = String.mk (p.data ++ [c]) := by
  unfold Term.overwriteChar
  rw [List.take_length, Nat.sub_self, List.replicate_zero,
    List.drop_eq_nil_of_le (by omega)]
  simp

theorem writeRunAux (l : List Char) (L : List String) (k : Nat) (p : String)
    (hc : ∀ c ∈ l, c ≠ '\r' ∧ c ≠ '\n')
    (hlen : L.length = k + 1) (hget : L.getD k "" = p) :
    List.foldl Term.putChar ⟨L, k, p.data.length⟩ l
      = ⟨L.take k ++ [String.mk (p.data ++ l)], k, p.data.length + l.length⟩ := by
  induction l generalizing L p with
  | nil =>
    have := eq_take_snoc L k p hlen hget
    simp [← this]
  | cons c l ih =>
    obtain ⟨hcr, hcn⟩ := hc c (by simp)
    have hstep : Term.putChar ⟨L, k, p.data.length⟩ c
        = ⟨L.take k ++ [String.mk (p.data ++ [c])], k, p.data.length + 1⟩ := by
      simp only [Term.putChar, if_neg hcr, if_neg hcn]
      rw [show (⟨L, k, p.data.length⟩ : Term).lines.getD k "" = p from hget]
      rw [overwriteChar_at_end]
      rw [setLine_eq _ L k (by omega) (by omega)]
    rw [List.foldl_cons, hstep]
    have hlen' : (L.take k ++ [String.mk (p.data ++ [c])]).length = k + 1 := by
      simp [List.length_take]
      omega
    have hget' : (L.take k ++ [String.mk (p.data ++ [c])]).getD k ""
        = String.mk (p.data ++ [c]) := by
      have hk : (L.take k).length = k := by
        simp [List.length_take]
        omega
      have hg := getD_snoc (L.take k) (String.mk (p.data ++ [c]))
      rwa [hk] at hg
    have := ih (L.take k ++ [String.mk (p.data ++ [c])]) (String.mk (p.data ++ [c]))
      (fun d hd => hc d (by simp [hd])) hlen' hget'
    rw [show (String.mk (p.data ++ [c])).data = p.data ++ [c] from rfl] at this
    rw [show p.data.length + 1 = (p.data ++ [c]).length by simp]
    rw [this]
    have htake : (L.take k ++ [String.mk (p.data ++ [c])]).take k = L.take k :=
      List.take_left' (by simp [List.length_take]; omega)
    rw [htake]
    simp [List.append_assoc]
    omega

theorem writeRun (l : List Char) (L : List String)
    (hne : l ≠ [])
    (hc : ∀ c ∈ l, c ≠ '\r' ∧ c ≠ '\n') :
    List.foldl Term.putChar ⟨L, L.length, 0⟩ l
      = ⟨L ++ [String.mk l], L.length, l.length⟩ := by
  cases l with
  | nil => simp at hne
  | cons c l =>
    obtain ⟨hcr, hcn⟩ := hc c (by simp)
    have hstep : Term.putChar ⟨L, L.length, 0⟩ c
        = ⟨L ++ [String.mk [c]], L.length, 1⟩ := by
      simp only [Term.putChar, if_neg hcr, if_neg hcn]
      rw [show (⟨L, L.length, 0⟩ : Term).lines.getD L.length "" = ""
        from List.getD_eq_default _ _ (le_refl _)]
      rw [show Term.overwriteChar "" 0 c = String.mk [c] from rfl]
      rw [setLine_eq _ L L.length (le_refl _) (by omega)]
      simp [List.take_length]
    rw [List.foldl_cons, hstep]
    have := writeRunAux l (L ++ [String.mk [c]]) L.length (String.mk [c])
      (fun d hd => hc d (by simp [hd])) (by simp) (getD_snoc _ _)
    rw [show (String.mk [c]).data = [c] from rfl] at this
    rw [show (1 : Nat) = ([c] : List Char).length from rfl]
    rw [this]
    rw [List.take_left' rfl]
    simp
    omega

theorem writeStr_line (L : List String) (line : String)
    (hfree : crlfFree line) (hne : line.data ≠ []) :
    Term.writeStr ⟨L, L.length, 0⟩ (line ++ "\r\n")
      = ⟨L ++ [line], L.length + 1, 0⟩ := by
  unfold Term.writeStr
  rw [String.data_append]
  rw [show ("\r\n" : String).data = ['\r', '\n'] from rfl]
  rw [List.foldl_append]
  rw [writeRun line.data L hne hfree]
  simp [Term.putChar]

theorem applyOps_append (t : Term) (l1 l2 : List TermOp) :
    applyOps t (l1 ++ l2) = applyOps (applyOps t l1) l2 :=
  List.foldl_append _ _ _ _

theorem applyOps_cons (t : Term) (op : TermOp) (rest : List TermOp) :
    applyOps t (op :: rest) = applyOps (applyOp t op) rest := rfl

theorem applyOps_clear_home (t : Term) (rest : List TermOp) :
    applyOps t (.clearAll :: .moveTo 0 0 :: rest) = applyOps ⟨[], 0, 0⟩ rest := rfl

theorem applyOps_writes (cs : List Character) (L : List String)
    (h : ∀ c ∈ cs, crlfFree c.name ∧ crlfFree c.class') :
    applyOps ⟨L, L.length, 0⟩
      (cs.flatMap fun character =>
        [.write (character.name ++ " " ++ character.class' ++ "\r\n"), .flush])
      = ⟨L ++ cs.map (fun character => character.name ++ " " ++ character.class'),
         L.length + cs.length, 0⟩ := by
  induction cs generalizing L with
  | nil => simp [applyOps]
  | cons ch cs ih =>
    obtain ⟨hn, hcl⟩ := h ch (by simp)
    have hline : crlfFree (ch.name ++ " " ++ ch.class') :=
      crlfFree_append _ _ (crlfFree_append _ _ hn (by decide)) hcl
    rw [List.flatMap_cons]
    rw [List.cons_append, List.cons_append, List.nil_append]
    rw [applyOps_cons, applyOps_cons]
    rw [show applyOp (⟨L, L.length, 0⟩ : Term)
        (.write (ch.name ++ " " ++ ch.class' ++ "\r\n"))
      = Term.writeStr ⟨L, L.length, 0⟩ (ch.name ++ " " ++ ch.class' ++ "\r\n") from rfl]
    rw [writeStr_line L _ hline (line_data_ne_nil ch)]
    rw [show applyOp (⟨L ++ [ch.name ++ " " ++ ch.class'], L.length + 1, 0⟩ : Term) .flush
      = ⟨L ++ [ch.name ++ " " ++ ch.class'], L.length + 1, 0⟩ from rfl]
    have hterm : (⟨L ++ [ch.name ++ " " ++ ch.class'], L.length + 1, 0⟩ : Term)
        = ⟨L ++ [ch.name ++ " " ++ ch.class'],
           (L ++ [ch.name ++ " " ++ ch.class']).length, 0⟩ := by
      simp
    rw [hterm, ih (L ++ [ch.name ++ " " ++ ch.class']) (fun c hc => h c (by simp [hc]))]
    congr 1
    · simp [List.append_assoc]
    · simp only [List.length_append, List.length_cons, List.length_nil]
      omega

theorem select_display_eq (s : SelectScreen) (t : Term)
    (h : ∀ c ∈ s.saved_characters, crlfFree c.name ∧ crlfFree c.class') :
    applyOps t s.ops
      = ⟨s.saved_characters.map (fun character => character.name ++ " " ++ character.class')
          ++ ["New Character Sheet.."], 0, 0⟩ := by
  unfold SelectScreen.ops
  simp only [List.cons_append, List.nil_append]
  rw [applyOps_clear_home]
  rw [applyOps_append]
  have hw := applyOps_writes s.saved_characters [] h
  simp only [List.length_nil, List.nil_append, Nat.zero_add] at hw
  rw [hw]
  have hmap : s.saved_characters.length
      = (s.saved_characters.map
          (fun character => character.name ++ " " ++ character.class')).length := by
    simp
  rw [hmap]
  have hlit := writeRun ("New Character Sheet..".data)
    (s.saved_characters.map (fun character => character.name ++ " " ++ character.class'))
    (by decide) (by decide)
  show applyOp (applyOp (applyOp _ (.write "New Character Sheet..")) .flush) (.moveTo 0 0) = _
  rw [show applyOp (⟨s.saved_characters.map
        (fun character => character.name ++ " " ++ character.class'),
      (s.saved_characters.map
        (fun character => character.name ++ " " ++ character.class')).length, 0⟩ : Term)
      (.write "New Character Sheet..")
    = List.foldl Term.putChar ⟨s.saved_characters.map
        (fun character => character.name ++ " " ++ character.class'),
      (s.saved_characters.map
        (fun character => character.name ++ " " ++ character.class')).length, 0⟩
      ("New Character Sheet..".data) from rfl]
  rw [hlit]
  rfl

theorem applyOps_ops_const (s : SelectScreen) (t t' : Term) :
    applyOps t s.ops = applyOps t' s.ops := by
  unfold SelectScreen.ops
  simp only [List.cons_append, List.nil_append]
  rw [applyOps_clear_home t, applyOps_clear_home t']

/-- One pass of the input loop body either panics (none) or returns the
unchanged screen with the continue control: the source drops the handler
outcome, so no pass can leave the loop or swap the state. -/
theorem handle_input_step_shape (s : Screen) (t : Term) (ev : Event) :
    s.handle_input_step t ev = none ∨
    ∃ t', s.handle_input_step t ev = some (s, t', .continueLoop) := by
  cases ev with
  | Key event =>
    cases hs : s.state with
    | some st =>
      cases hk : st.handle_keyboard_event t event with
      | none =>
        left
        simp [Screen.handle_input_step, hs, hk]
      | some pr =>
        obtain ⟨o, t'⟩ := pr
        right
        exact ⟨t', by simp [Screen.handle_input_step, hs, hk]⟩
    | none =>
      right
      exact ⟨t, by simp [Screen.handle_input_step, hs]⟩
  | other =>
    right
    exact ⟨t, by simp [Screen.handle_input_step]⟩

/-! The claims. -/

/-- C1 (code bug): the spec requires the driver to install the state
returned in a ChangeState outcome and render it before the next key, but
the input loop of the source discards the handler outcome. At the concrete
failing input (selection screen with one saved character, cursor on row 0,
Enter pressed) the handler returns a transition to a sheet screen holding
that character, yet one pass of the loop body leaves the active state and
the terminal exactly as they were and just continues the loop: no state
replacement and no render of the new state happens. -/
theorem c1_transition_outcome_discarded :
    State.handle_keyboard_event (.select ⟨[⟨"Aria", "Ranger"⟩]⟩) ⟨[], 0, 0⟩ ⟨.Enter⟩
      = some (.ChangeState (.character ⟨some ⟨"Aria", "Ranger"⟩⟩), ⟨[], 0, 0⟩) ∧
    Screen.handle_input_step ⟨some (.select ⟨[⟨"Aria", "Ranger"⟩]⟩)⟩ ⟨[], 0, 0⟩
        (.Key ⟨.Enter⟩)
      = some (⟨some (.select ⟨[⟨"Aria", "Ranger"⟩]⟩)⟩, ⟨[], 0, 0⟩, .continueLoop) :=
  ⟨rfl, rfl⟩

/-- C2 (code bug): the spec says the loop terminates normally once a
handler returns Exit, but the loop of the source never does: over every
finite prefix of the event stream the loop either panics or is still
running at the end (the terminated flag is never true), because the match
on the handler outcome has two arms that both do nothing and the loop body
contains no break or return. -/
theorem c2_handle_input_never_exits (s : Screen) (t : Term) (evs : List Event)
    (s' : Screen) (t' : Term) (b : Bool)
    (h : Screen.handle_input s t evs = some (s', t', b)) : b = false := by
  induction evs generalizing s t with
  | nil =>
    simp only [Screen.handle_input, Option.some.injEq, Prod.mk.injEq] at h
    exact h.2.2.symm
  | cons ev evs ih =>
    rcases handle_input_step_shape s t ev with hstep | ⟨tm, hstep⟩
    · simp only [Screen.handle_input, hstep] at h
      exact Option.noConfusion h
    · simp only [Screen.handle_input, hstep] at h
      exact ih s tm h

/-- Witness for C2: with one saved-characters-free selection screen and a
single Esc key (on which the handler does report Exit) the loop is still
running afterwards. -/
theorem c2_handle_input_never_exits_witness :
    Screen.handle_input ⟨some (.select ⟨[]⟩)⟩ ⟨[], 0, 0⟩ [.Key ⟨.Esc⟩]
      = some (⟨some (.select ⟨[]⟩)⟩, ⟨[], 0, 0⟩, false) ∧ (false : Bool) = false :=
  ⟨rfl, c2_handle_input_never_exits ⟨some (.select ⟨[]⟩)⟩ ⟨[], 0, 0⟩ [.Key ⟨.Esc⟩]
    ⟨some (.select ⟨[]⟩)⟩ ⟨[], 0, 0⟩ false rfl⟩

/-- C3: on key k the selection screen always reports Input (Continue) and
moves the cursor one row up through the terminal, which clamps at the top
margin: from row 0 the row stays 0 (a no-op on the row), from a positive
row it decreases by exactly one. -/
theorem c3_k_clamped_at_top (s : SelectScreen) (t : Term) :
    (t.row = 0 →
      s.handle_keyboard_event t ⟨.Char 'k'⟩ = some (.Input, { t with col := 0 })) ∧
    (0 < t.row →
      s.handle_keyboard_event t ⟨.Char 'k'⟩
        = some (.Input, { t with row := t.row - 1, col := 0 })) := by
  constructor
  · intro h
    unfold SelectScreen.handle_keyboard_event
    simp [applyOp, h]
  · intro h
    unfold SelectScreen.handle_keyboard_event
    simp [applyOp]

/-- Witness for C3 at rows 0 and 2. -/
theorem c3_k_clamped_at_top_witness :
    SelectScreen.handle_keyboard_event ⟨[⟨"Aria", "Ranger"⟩]⟩ ⟨[], 0, 0⟩ ⟨.Char 'k'⟩
      = some (.Input, ⟨[], 0, 0⟩) ∧
    SelectScreen.handle_keyboard_event ⟨[⟨"Aria", "Ranger"⟩]⟩ ⟨[], 2, 0⟩ ⟨.Char 'k'⟩
      = some (.Input, ⟨[], 1, 0⟩) :=
  ⟨(c3_k_clamped_at_top ⟨[⟨"Aria", "Ranger"⟩]⟩ ⟨[], 0, 0⟩).1 rfl,
   (c3_k_clamped_at_top ⟨[⟨"Aria", "Ranger"⟩]⟩ ⟨[], 2, 0⟩).2 (by decide)⟩

/-- With exactly 2 ^ 16 saved characters the wrapped count equals the
wrapped row 0, so j does not move the cursor; stated over an abstract
list of that length so that no proof step evaluates a huge literal. -/
theorem c4_wrap_aux (cs : List Character) (hlen : cs.length = 65536) :
    SelectScreen.handle_keyboard_event ⟨cs⟩ ⟨[], 0, 0⟩ ⟨.Char 'j'⟩
      = some (.Input, ⟨[], 0, 0⟩) := by
  unfold SelectScreen.handle_keyboard_event
  simp [hlen]

/-- With exactly 2 ^ 16 saved characters the wrapped count equals the
wrapped row 0, so Enter takes the new character branch; stated over an
abstract list of that length so that no proof step evaluates a huge
literal. -/
theorem c5_wrap_aux (cs : List Character) (hlen : cs.length = 65536) :
    SelectScreen.handle_keyboard_event ⟨cs⟩ ⟨[], 0, 0⟩ ⟨.Enter⟩
      = some (.ChangeState (.character ⟨some Character.new⟩), ⟨[], 0, 0⟩) := by
  unfold SelectScreen.handle_keyboard_event
  simp [hlen]

/-- The first element of the big replicate list, extracted without
evaluating the list. -/
theorem get?_zero_replicate (a : Character) :
    (List.replicate 65536 a).get? 0 = some a := by
  rw [show (65536 : Nat) = 65535 + 1 from rfl, List.replicate_succ]
  rfl

/-- C4 counterexample: the saved character count goes through a truncating
len() as u16 cast in the source, so with 65536 saved characters the
wrapped count is 0 and at cursor row 0 (strictly below N) the comparison
row against wrapped count finds them equal: the handler does not move the
cursor down, refuting the claimed move for row below N. -/
theorem c4_counterexample :
    0 < (List.replicate 65536 (⟨"Aria", "Ranger"⟩ : Character)).length ∧
    SelectScreen.handle_keyboard_event ⟨List.replicate 65536 ⟨"Aria", "Ranger"⟩⟩
        ⟨[], 0, 0⟩ ⟨.Char 'j'⟩
      = some (.Input, ⟨[], 0, 0⟩) :=
  ⟨by rw [List.length_replicate]; omega,
   c4_wrap_aux _ (by rw [List.length_replicate])⟩

/-- C4 as amended: on key j the selection screen always reports Input
(Continue); at cursor row equal to the saved character count the row is
untouched for every count, and when the count is below 2 ^ 16 (so the
u16 cast of the source does not wrap) the cursor moves down exactly one
row from every row below the count. -/
theorem c4_j_clamped_at_bottom (s : SelectScreen) (t : Term) :
    (t.row = s.saved_characters.length →
      s.handle_keyboard_event t ⟨.Char 'j'⟩ = some (.Input, t)) ∧
    (s.saved_characters.length < 65536 →
      t.row < s.saved_characters.length →
      s.handle_keyboard_event t ⟨.Char 'j'⟩
        = some (.Input, { t with row := t.row + 1, col := 0 })) := by
  constructor
  · intro h
    unfold SelectScreen.handle_keyboard_event
    simp [h]
  · intro hN h
    have hrow : t.row < 65536 := Nat.lt_trans h hN
    have hne : t.row % 65536 ≠ s.saved_characters.length % 65536 := by
      rw [Nat.mod_eq_of_lt hrow, Nat.mod_eq_of_lt hN]
      omega
    unfold SelectScreen.handle_keyboard_event
    simp [hne, applyOp]

/-- Witness for C4 with one saved character, at rows 1 (the bottom) and 0. -/
theorem c4_j_clamped_at_bottom_witness :
    SelectScreen.handle_keyboard_event ⟨[⟨"Aria", "Ranger"⟩]⟩ ⟨[], 1, 0⟩ ⟨.Char 'j'⟩
      = some (.Input, ⟨[], 1, 0⟩) ∧
    SelectScreen.handle_keyboard_event ⟨[⟨"Aria", "Ranger"⟩]⟩ ⟨[], 0, 0⟩ ⟨.Char 'j'⟩
      = some (.Input, ⟨[], 1, 0⟩) :=
  ⟨(c4_j_clamped_at_bottom ⟨[⟨"Aria", "Ranger"⟩]⟩ ⟨[], 1, 0⟩).1 rfl,
   (c4_j_clamped_at_bottom ⟨[⟨"Aria", "Ranger"⟩]⟩ ⟨[], 0, 0⟩).2 (by decide) (by decide)⟩

/-- C5 counterexample: with 65536 saved characters the wrapped count of
the truncating len() as u16 cast is 0, so at cursor row 0, which indexes
a real saved character, Enter takes the new character branch and returns
a transition holding the freshly constructed default instead of
saved_characters[0]; the two differ in name and class. -/
theorem c5_counterexample :
    (List.replicate 65536 (⟨"Aria", "Ranger"⟩ : Character)).get? 0
      = some ⟨"Aria", "Ranger"⟩ ∧
    SelectScreen.handle_keyboard_event ⟨List.replicate 65536 ⟨"Aria", "Ranger"⟩⟩
        ⟨[], 0, 0⟩ ⟨.Enter⟩
      = some (.ChangeState (.character ⟨some Character.new⟩), ⟨[], 0, 0⟩) ∧
    some Character.new ≠ some (⟨"Aria", "Ranger"⟩ : Character) :=
  ⟨get?_zero_replicate ⟨"Aria", "Ranger"⟩,
   c5_wrap_aux _ (by rw [List.length_replicate]),
   by decide⟩

/-- C5 as amended: when the saved character count is below 2 ^ 16 (so the
u16 cast of the source does not wrap) and the cursor row indexes a saved
character (row below the count), Enter returns a transition to a sheet
screen holding exactly that character of the list, name and class
included. -/
theorem c5_enter_transitions_to_selected (s : SelectScreen) (t : Term) (c : Character)
    (hN : s.saved_characters.length < 65536)
    (h : s.saved_characters.get? t.row = some c) :
    s.handle_keyboard_event t ⟨.Enter⟩
      = some (.ChangeState (.character ⟨some c⟩), t) := by
  have hlt : t.row < s.saved_characters.length := (List.get?_eq_some.mp h).1
  have hrow : t.row < 65536 := Nat.lt_trans hlt hN
  have hne : t.row % 65536 ≠ s.saved_characters.length % 65536 := by
    rw [Nat.mod_eq_of_lt hrow, Nat.mod_eq_of_lt hN]
    omega
  have hg : s.saved_characters[t.row % 65536]? = some c := by
    rw [Nat.mod_eq_of_lt hrow, ← List.get?_eq_getElem?]
    exact h
  unfold SelectScreen.handle_keyboard_event
  simp [hne, hg]

/-- Witness for C5: two saved characters, cursor on row 1. -/
theorem c5_enter_transitions_to_selected_witness :
    ([⟨"Aria", "Ranger"⟩, ⟨"Borin", "Cleric"⟩] : List Character).get? 1
      = some ⟨"Borin", "Cleric"⟩ ∧
    SelectScreen.handle_keyboard_event ⟨[⟨"Aria", "Ranger"⟩, ⟨"Borin", "Cleric"⟩]⟩
        ⟨[], 1, 0⟩ ⟨.Enter⟩
      = some (.ChangeState (.character ⟨some ⟨"Borin", "Cleric"⟩⟩), ⟨[], 1, 0⟩) :=
  ⟨rfl, c5_enter_transitions_to_selected ⟨[⟨"Aria", "Ranger"⟩, ⟨"Borin", "Cleric"⟩]⟩
    ⟨[], 1, 0⟩ ⟨"Borin", "Cleric"⟩ (by decide) rfl⟩

/-- C6 counterexample: the claimed distinctness from every saved entry
fails in value semantics. With the saved list holding one character equal
to the default, Enter on the bottom row transitions to a sheet holding a
character that is equal to that entry, so the fresh character is not
distinct from every entry of the list. -/
theorem c6_counterexample :
    SelectScreen.handle_keyboard_event ⟨[Character.new]⟩ ⟨[], 1, 0⟩ ⟨.Enter⟩
      = some (.ChangeState (.character ⟨some Character.new⟩), ⟨[], 1, 0⟩) ∧
    ¬ (∀ c ∈ ([Character.new] : List Character), Character.new ≠ c) := by
  refine ⟨rfl, fun h => ?_⟩
  exact h Character.new (by simp) rfl

/-- C6 as amended: with the cursor row equal to the saved character count,
Enter returns a transition to a sheet screen whose held character is
present and is the freshly constructed default of Character::new, not an
element drawn from the list; distinctness in value from every saved entry
only holds when no entry equals the default. -/
theorem c6_enter_new_character (s : SelectScreen) (t : Term)
    (h : t.row = s.saved_characters.length) :
    s.handle_keyboard_event t ⟨.Enter⟩
      = some (.ChangeState (.character ⟨some Character.new⟩), t) := by
  unfold SelectScreen.handle_keyboard_event
  simp [h]

/-- Witness for the amended C6: empty saved list, cursor on row 0. -/
theorem c6_enter_new_character_witness :
    SelectScreen.handle_keyboard_event ⟨[]⟩ ⟨[], 0, 0⟩ ⟨.Enter⟩
      = some (.ChangeState (.character ⟨some Character.new⟩), ⟨[], 0, 0⟩) :=
  c6_enter_new_character ⟨[]⟩ ⟨[], 0, 0⟩ rfl

/-- C7 counterexample: the render line count is N + 1 only for data free
of line breaks. With one saved character whose name itself contains a
carriage return and line feed, the render produces three visible lines
instead of the claimed two. -/
theorem c7_counterexample :
    SelectScreen.display_screen ⟨[⟨"a\r\nb", "c"⟩]⟩ ⟨[], 0, 0⟩
      = some (Except.ok (), ⟨["a", "b c", "New Character Sheet.."], 0, 0⟩) ∧
    (["a", "b c", "New Character Sheet.."] : List String).length
      ≠ ([(⟨"a\r\nb", "c"⟩ : Character)] : List Character).length + 1 :=
  ⟨rfl, by decide⟩

/-- C7 as amended: for every selection screen whose character names and
classes are free of carriage returns and line feeds, the render leaves the
terminal showing exactly N + 1 lines regardless of its previous content:
one line per character in list order (name, a space, class) followed by
the literal line, with the cursor back at the home position, row 0. -/
theorem c7_selection_renders_lines (s : SelectScreen) (t : Term)
    (h : ∀ c ∈ s.saved_characters, crlfFree c.name ∧ crlfFree c.class') :
    s.display_screen t
      = some (Except.ok (),
          ⟨s.saved_characters.map (fun character => character.name ++ " " ++ character.class')
            ++ ["New Character Sheet.."], 0, 0⟩) := by
  unfold SelectScreen.display_screen
  rw [select_display_eq s t h]

/-- Witness for the amended C7: one saved character rendered over a dirty
terminal. -/
theorem c7_selection_renders_lines_witness :
    SelectScreen.display_screen ⟨[⟨"Aria", "Ranger"⟩]⟩ ⟨["junk", "junk"], 7, 3⟩
      = some (Except.ok (), ⟨["Aria Ranger", "New Character Sheet.."], 0, 0⟩) :=
  c7_selection_renders_lines ⟨[⟨"Aria", "Ranger"⟩]⟩ ⟨["junk", "junk"], 7, 3⟩ (by decide)

/-- C8: rendering a sheet screen with an absent character returns the
missing character error (an Err, not a panic: the unchecked unwrap inside
the draw closure is the none case of the model and is not reached) and
leaves the terminal unchanged, so no partial sheet output is produced. -/
theorem c8_sheet_missing_character (t : Term) :
    CharacterScreen.display_screen ⟨none⟩ t
      = some (Except.error "No Character", t) := rfl

/-- Witness for C8 on a concrete dirty terminal. -/
theorem c8_sheet_missing_character_witness :
    CharacterScreen.display_screen ⟨none⟩ ⟨["partial"], 2, 5⟩
      = some (Except.error "No Character", ⟨["partial"], 2, 5⟩) :=
  c8_sheet_missing_character ⟨["partial"], 2, 5⟩

/-- C9: rendering any screen state twice in a row over the same underlying
data shows the same visible terminal content both times; each successful
render first clears the previous content, and the failing render leaves
the terminal untouched both times. -/
theorem c9_render_idempotent (s : State) (t : Term) :
    State.renderedTerm s (State.renderedTerm s t) = State.renderedTerm s t := by
  cases s with
  | select sc =>
    simp only [State.renderedTerm, State.display_screen, SelectScreen.display_screen]
    exact applyOps_ops_const sc _ t
  | character cc =>
    cases hc : cc.current_character with
    | none =>
      simp [State.renderedTerm, State.display_screen, CharacterScreen.display_screen,
        Option.context, hc]
    | some c =>
      simp [State.renderedTerm, State.display_screen, CharacterScreen.display_screen,
        Option.context, hc]

/-- Witness for C9 on a concrete selection screen and dirty terminal. -/
theorem c9_render_idempotent_witness :
    State.renderedTerm (.select ⟨[⟨"Aria", "Ranger"⟩]⟩)
        (State.renderedTerm (.select ⟨[⟨"Aria", "Ranger"⟩]⟩) ⟨["junk"], 3, 1⟩)
      = State.renderedTerm (.select ⟨[⟨"Aria", "Ranger"⟩]⟩) ⟨["junk"], 3, 1⟩ :=
  c9_render_idempotent (.select ⟨[⟨"Aria", "Ranger"⟩]⟩) ⟨["junk"], 3, 1⟩

/-- C10: with the cursor row within the selection invariant (at most the
saved character count), Enter never panics: the list is indexed only in
the branch where the row differs from the count, hence is below it, so the
out of bounds case of the lookup is unreachable. -/
theorem c10_enter_in_bounds_no_panic (s : SelectScreen) (t : Term)
    (h : t.row ≤ s.saved_characters.length) :
    (s.handle_keyboard_event t ⟨.Enter⟩).isSome = true := by
  unfold SelectScreen.handle_keyboard_event
  by_cases he : t.row % 65536 = s.saved_characters.length % 65536
  · simp [he]
  · have hlt : t.row % 65536 < s.saved_characters.length := by
      rcases Nat.lt_or_ge s.saved_characters.length 65536 with hN | hN
      · have hrow : t.row < 65536 := Nat.lt_of_le_of_lt h hN
        rw [Nat.mod_eq_of_lt hrow, Nat.mod_eq_of_lt hN] at he
        rw [Nat.mod_eq_of_lt hrow]
        omega
      · exact Nat.lt_of_lt_of_le (Nat.mod_lt _ (by omega)) hN
    have hg : s.saved_characters[t.row % 65536]?
        = some (s.saved_characters.get ⟨t.row % 65536, hlt⟩) := by
      rw [← List.get?_eq_getElem?]
      exact List.get?_eq_get hlt
    simp [he, hg]

/-- Witness for C10: one saved character, cursor on the bottom row. -/
theorem c10_enter_in_bounds_no_panic_witness :
    (SelectScreen.handle_keyboard_event ⟨[⟨"Aria", "Ranger"⟩]⟩ ⟨[], 1, 0⟩
      ⟨.Enter⟩).isSome = true :=
  c10_enter_in_bounds_no_panic ⟨[⟨"Aria", "Ranger"⟩]⟩ ⟨[], 1, 0⟩ (by decide)

end TuiAmI
